import Mathlib

/-!
Verification of the LinkedIn Job Insights content script (the in-page
data-correlation and presentation engine).  The repository ships two
near-duplicate implementations of the script, embedded as string assets in
`installer_script.py` (the richer variant, `get_content_script`) and
`exe_installer_script.py` (the reduced variant, `get_extension_files`).
This file shallowly embeds both variants: JavaScript values that flow from
`response.json()` are modelled by a `Json` inductive, JavaScript
member access / truthiness / `||` by explicit functions with the same
semantics, thrown `TypeError`s by `Except`, and the stateful parts of the
script (the fetch wrapper, the record cache, the tooltip presenter and the
lifecycle `init`/`destroy` pair) by explicit state passing over a
`ScriptState` record.
-/

namespace JobInsights

/-! ## JavaScript values -/

mutual

/-- A JavaScript value as it can appear in a decoded JSON payload, plus
`undefined` (which arises from member access on objects lacking the key). -/
inductive Json where
  | undefined
  | null
  | bool (b : Bool)
  | num (n : Int)
  | str (s : String)
  | arr (xs : JsonList)
  | obj (fs : JsonFields)
deriving DecidableEq

/-- A list of JavaScript values (the elements of a JSON array). -/
inductive JsonList where
  | nil
  | cons (hd : Json) (tl : JsonList)
deriving DecidableEq

/-- The fields of a JSON object, in insertion order. -/
inductive JsonFields where
  | nil
  | cons (k : String) (v : Json) (tl : JsonFields)
deriving DecidableEq

end

/-- Convert the embedded array representation to a Lean list. -/
def JsonList.toList : JsonList → List Json
  | .nil => []
  | .cons h t => h :: t.toList

/-- First field with the given key, as in a JavaScript object (whose keys
are unique). -/
def JsonFields.lookup : JsonFields → String → Option Json
  | .nil, _ => none
  | .cons k v t, key => if k = key then some v else t.lookup key

/-- Total member access `v.k`, defined (as in JavaScript) to be `undefined`
on every non-object base and on objects lacking the key.  Access on `null`
or `undefined` throws in JavaScript; callers that can reach those bases use
`jsGet` instead. -/
def Json.field (v : Json) (k : String) : Json :=
  match v with
  | .obj fs => (fs.lookup k).getD .undefined
  | _ => .undefined

/-- Member access `v.k` with the JavaScript `TypeError` on `null` and
`undefined` bases made explicit. -/
def jsGet (v : Json) (k : String) : Except String Json :=
  match v with
  | .undefined => .error "TypeError: cannot read properties of undefined"
  | .null => .error "TypeError: cannot read properties of null"
  | _ => .ok (v.field k)

/-- Optional chaining `v?.k`: short-circuits to `undefined` on `null` and
`undefined` instead of throwing. -/
def jsGetOpt (v : Json) (k : String) : Json :=
  match v with
  | .undefined => .undefined
  | .null => .undefined
  | _ => v.field k

/-- JavaScript truthiness of a value.  (`NaN` does not arise in this model:
numbers are integers.) -/
def jsTruthy : Json → Bool
  | .undefined => false
  | .null => false
  | .bool b => b
  | .num n => n != 0
  | .str s => s != ""
  | .arr _ => true
  | .obj _ => true

/-- JavaScript `a || b`. -/
def jsOr (a b : Json) : Json := if jsTruthy a then a else b

/-! ## Identifier extraction (`extractJobId`)

The source's patterns are plain regexes of a common shape: a literal,
optionally followed by one character from a small set (`[=:]`), then a
captured maximal digit run `(\d+)`, optionally required to be followed by a
closing quote.  `String.match` without the global flag returns the first
(leftmost) match, which for this shape is the first position at which the
whole pattern matches. -/

/-- One extraction rule: the regex
`literal` `[sepChars]?` `(\d+)` (`"` if `quoteAfter`). -/
structure IdPattern where
  literal : List Char
  sepChars : List Char
  quoteAfter : Bool

/-- Match a literal at the front of the text, returning the rest. -/
def matchLit : List Char → List Char → Option (List Char)
  | [], cs => some cs
  | _ :: _, [] => none
  | l :: ls, c :: cs => if c = l then matchLit ls cs else none

/-- Consume the one-character separator class, when the rule has one. -/
def afterSep (seps : List Char) (cs : List Char) : Option (List Char) :=
  match seps with
  | [] => some cs
  | _ :: _ =>
    match cs with
    | [] => none
    | c :: rest => if seps.contains c then some rest else none

/-- Try to match a rule exactly at the current position; on success return
the captured digit run. -/
def tryMatchAt (p : IdPattern) (cs : List Char) : Option String :=
  match matchLit p.literal cs with
  | none => none
  | some r1 =>
    match afterSep p.sepChars r1 with
    | none => none
    | some r2 =>
      if r2.takeWhile Char.isDigit = [] then none
      else if p.quoteAfter then
        match r2.drop (r2.takeWhile Char.isDigit).length with
        | '"' :: _ => some (String.mk (r2.takeWhile Char.isDigit))
        | _ => none
      else some (String.mk (r2.takeWhile Char.isDigit))

/-- Leftmost match of a rule in the text, as `String.match` computes it. -/
def scanPattern (p : IdPattern) : List Char → Option String
  | [] => tryMatchAt p []
  | c :: rest =>
    match tryMatchAt p (c :: rest) with
    | some m => some m
    | none => scanPattern p rest

/-- Rule for `/\/jobs\/view\/(\d+)/`. -/
def patViewPath : IdPattern := ⟨"/jobs/view/".data, [], false⟩

/-- Rule for `/currentJobId=(\d+)/`. -/
def patCurrentJobId : IdPattern := ⟨"currentJobId=".data, [], false⟩

/-- Rule for `/jobPostingId[=:](\d+)/`. -/
def patJobPostingIdSep : IdPattern := ⟨"jobPostingId".data, ['=', ':'], false⟩

/-- Rule for `/"jobPostingId":"(\d+)"/`. -/
def patJobPostingIdQuoted : IdPattern := ⟨"\"jobPostingId\":\"".data, [], true⟩

/-- The ordered rule list of the richer variant (`installer_script.py`). -/
def jobIdPatterns : List IdPattern :=
  [patViewPath, patCurrentJobId, patJobPostingIdSep, patJobPostingIdQuoted]

/-- The ordered rule list of the reduced variant (`exe_installer_script.py`),
which omits the quoted-field rule. -/
def exeJobIdPatterns : List IdPattern :=
  [patViewPath, patCurrentJobId, patJobPostingIdSep]

/-- The `for (const pattern of patterns) { ... if (match) return match[1] }`
loop of `extractJobId`. -/
def extractLoop : List IdPattern → List Char → Option String
  | [], _ => none
  | p :: ps, cs =>
    match scanPattern p cs with
    | some m => some m
    | none => extractLoop ps cs

/-- `extractJobId` of the richer variant. -/
def extractJobId (url : String) : Option String :=
  extractLoop jobIdPatterns url.data

/-- `extractJobId` of the reduced variant. -/
def extractJobIdExe (url : String) : Option String :=
  extractLoop exeJobIdPatterns url.data

/-- `url.includes(pat)` scanning helper. -/
def includesFrom (pat : List Char) : List Char → Bool
  | [] => (matchLit pat []).isSome
  | c :: rest => (matchLit pat (c :: rest)).isSome || includesFrom pat rest

/-- JavaScript `s.includes(pat)`. -/
def strIncludes (s pat : String) : Bool := includesFrom pat.data s.data

/-! ## Timestamp normalization (`convertTimestamp`) -/

/-- Value of a maximal digit run, when nonempty. -/
def digitsVal (cs : List Char) : Option Nat :=
  let ds := cs.takeWhile Char.isDigit
  if ds = [] then none
  else some (ds.foldl (fun a c => a * 10 + (c.toNat - '0'.toNat)) 0)

/-- JavaScript `parseInt` on the payload values that can reach it: a number
parses to itself, a string to its leading (optionally signed) digit run, and
everything else to `NaN` (modelled as `none`). -/
def parseIntJs : Json → Option Int
  | .num n => some n
  | .str s =>
    match s.data with
    | '-' :: rest => (digitsVal rest).map (fun n => -(n : Int))
    | cs => (digitsVal cs).map (fun n => (n : Int))
  | _ => none

/-- Rendering of `new Date(n).toLocaleDateString()` plus the time part.
The actual text is locale- and host-environment-dependent, so it is
modelled by an explicit executable placeholder; no claim inspects it beyond
the `N/A` branch of `convertTimestamp`.  `none` is `new Date(NaN)`. -/
def renderDate : Option Int → String
  | some n => "<date " ++ toString n ++ ">"
  | none => "Invalid Date Invalid Date"

/-- `convertTimestamp` from both variants: falsy input (absent field or the
number `0`) yields `"N/A"`; otherwise the value is parsed as milliseconds
since the epoch and formatted. -/
def convertTimestamp (v : Json) : String :=
  if jsTruthy v then renderDate (parseIntJs v) else "N/A"

/-! ## Records and the record cache -/

/-- The normalized record stored by the richer variant's `processJobData`.
`id` keeps the JavaScript value used as the `Map` key (the payload's
`jobPostingId`, which may be a number, or the string extracted from
`entityUrn`); `views`, `applies`, `title`, `company` keep the raw payload
value or its `||`-fallback string. -/
structure JobRecord where
  id : Json
  listedAt : String
  expireAt : String
  originalListedAt : String
  views : Json
  applies : Json
  title : Json
  company : Json
deriving DecidableEq

/-- The reduced variant's record: no `originalListedAt`, `title`, `company`. -/
structure ExeJobRecord where
  id : Json
  listedAt : String
  expireAt : String
  views : Json
  applies : Json
deriving DecidableEq

/-- JavaScript `Map.set`: overwrite the entry with an equal key, else append. -/
def mapSet {α : Type} : List (Json × α) → Json → α → List (Json × α)
  | [], k, v => [(k, v)]
  | (k0, v0) :: rest, k, v =>
    if k0 = k then (k, v) :: rest else (k0, v0) :: mapSet rest k v

/-- JavaScript `Map.get`: the value at an equal key, else `none`. -/
def mapGet {α : Type} : List (Json × α) → Json → Option α
  | [], _ => none
  | (k0, v0) :: rest, k => if k0 = k then some v0 else mapGet rest k

/-- The richer variant's `this.jobData` map. -/
abbrev Cache := List (Json × JobRecord)

/-- The reduced variant's `this.jobData` map. -/
abbrev ExeCache := List (Json × ExeJobRecord)

/-! ## Payload processing (`processJobData`) -/

/-- The record literal built inside the richer `processJobData` for one raw
entry.  Total member access is sound here: the caller has already read two
fields of `job` without a `TypeError`, so `job` is neither `null` nor
`undefined`. -/
def buildJobRecord (jobId : Json) (job : Json) : JobRecord :=
  { id := jobId
    listedAt := convertTimestamp (job.field "listedAt")
    expireAt := convertTimestamp (job.field "expireAt")
    originalListedAt := convertTimestamp (job.field "originalListedAt")
    views := jsOr (job.field "views") (.str "N/A")
    applies := jsOr (job.field "applies") (.str "N/A")
    title := jsOr (job.field "title") (.str "Unknown")
    company := jsOr (jsGetOpt (jsGetOpt (job.field "companyDetails")
        "companyResolutionResult") "name") (.str "Unknown") }

/-- The reduced variant's record literal. -/
def buildExeJobRecord (jobId : Json) (job : Json) : ExeJobRecord :=
  { id := jobId
    listedAt := convertTimestamp (job.field "listedAt")
    expireAt := convertTimestamp (job.field "expireAt")
    views := jsOr (job.field "views") (.str "N/A")
    applies := jsOr (job.field "applies") (.str "N/A") }

/-- `this.extractJobId(v)` applied to an arbitrary JavaScript value:
`String.match` exists only on strings, so any other receiver throws. -/
def jsExtractJobId (v : Json) : Except String Json :=
  match v with
  | .str s =>
    .ok (match extractJobId s with | some m => .str m | none => .null)
  | _ => .error "TypeError: url.match is not a function"

/-- The reduced variant's extraction, with its shorter rule list. -/
def jsExtractJobIdExe (v : Json) : Except String Json :=
  match v with
  | .str s =>
    .ok (match extractJobIdExe s with | some m => .str m | none => .null)
  | _ => .error "TypeError: url.match is not a function"

/-- The `jobs = ...` shape dispatch of the richer `processJobData`: a truthy
`data.elements`, else a truthy `data.data && data.data.elements`, else the
payload itself when it is an array, else `[data]` when `data.jobPostingId`
is truthy, else the initial `[]`. -/
def selectJobs (data : Json) : Except String Json := do
  let e ← jsGet data "elements"
  if jsTruthy e then
    pure e
  else
    let d ← jsGet data "data"
    let de := if jsTruthy d then d.field "elements" else d
    if jsTruthy de then
      pure de
    else
      match data with
      | .arr _ => pure data
      | _ => do
        let jpid ← jsGet data "jobPostingId"
        if jsTruthy jpid then pure (.arr (.cons data .nil))
        else pure (.arr .nil)

/-- The reduced variant's shape dispatch: same chain of `||`s but with
`[data]` as the unconditional final fallback. -/
def selectJobsExe (data : Json) : Except String Json := do
  let e ← jsGet data "elements"
  if jsTruthy e then
    pure e
  else
    let d ← jsGet data "data"
    let de := if jsTruthy d then d.field "elements" else d
    if jsTruthy de then
      pure de
    else
      match data with
      | .arr _ => pure data
      | _ => pure (.arr (.cons data .nil))

/-- Body of the richer variant's `jobs.forEach` callback for one entry. -/
def processJob (c : Cache) (job : Json) : Except String Cache := do
  let jpid ← jsGet job "jobPostingId"
  let eurn ← jsGet job "entityUrn"
  if jsTruthy jpid || jsTruthy eurn then
    let jobId ← if jsTruthy jpid then pure jpid else jsExtractJobId eurn
    if jsTruthy jobId then
      pure (mapSet c jobId (buildJobRecord jobId job))
    else
      pure c
  else
    pure c

/-- Body of the reduced variant's `jobs.forEach` callback for one entry. -/
def processJobExe (c : ExeCache) (job : Json) : Except String ExeCache := do
  let jpid ← jsGet job "jobPostingId"
  if jsTruthy jpid then
    pure (mapSet c jpid (buildExeJobRecord jpid job))
  else
    let eurn ← jsGet job "entityUrn"
    let jobId ← jsExtractJobIdExe (jsOr eurn (.str ""))
    if jsTruthy jobId then
      pure (mapSet c jobId (buildExeJobRecord jobId job))
    else
      pure c

/-- `jobs.forEach(...)`: mutations made before a thrown entry persist; the
`Bool` records whether an exception reached the surrounding `catch`. -/
def processJobs : Cache → List Json → Cache × Bool
  | c, [] => (c, false)
  | c, j :: js =>
    match processJob c j with
    | .ok c2 => processJobs c2 js
    | .error _ => (c, true)

/-- The reduced variant's `forEach`. -/
def processJobsExe : ExeCache → List Json → ExeCache × Bool
  | c, [] => (c, false)
  | c, j :: js =>
    match processJobExe c j with
    | .ok c2 => processJobsExe c2 js
    | .error _ => (c, true)

/-- The richer `processJobData` body inside its `try`: shape dispatch, then
`forEach` (which throws when `jobs` is not an array).  Returns the cache
after all mutations plus whether an exception was caught. -/
def processJobDataRun (data : Json) (c : Cache) : Cache × Bool :=
  match selectJobs data with
  | .error _ => (c, true)
  | .ok (.arr xs) => processJobs c xs.toList
  | .ok _ => (c, true)

/-- The richer `processJobData` as the host sees it: the `catch` swallows
every exception (logging only), so the function is total. -/
def processJobData (data : Json) (c : Cache) : Cache :=
  (processJobDataRun data c).1

/-- The reduced `processJobData` body inside its `try`. -/
def processJobDataRunExe (data : Json) (c : ExeCache) : ExeCache × Bool :=
  match selectJobsExe data with
  | .error _ => (c, true)
  | .ok (.arr xs) => processJobsExe c xs.toList
  | .ok _ => (c, true)

/-- The reduced `processJobData` with its `catch`. -/
def processJobDataExe (data : Json) (c : ExeCache) : ExeCache :=
  (processJobDataRunExe data c).1

/-! ## The fetch wrapper (`interceptNetworkRequests`) -/

/-- A settled `fetch` response: `ok` is `response.ok`; `body` is the result
of `response.clone().json()`, with `none` for a decode rejection (which the
inner `.catch` swallows). -/
structure JsResponse where
  ok : Bool
  body : Option Json
deriving DecidableEq

/-- The fixed endpoint-signature substring the wrapper filters on. -/
def targetSignature : String := "voyager/api/jobs/jobPostings"

/-- Whether a first `fetch` argument takes the interception branch:
`typeof url === 'string' && url.includes('voyager/api/jobs/jobPostings')`. -/
def urlMatches (url : Json) : Bool :=
  match url with
  | .str s => strIncludes s targetSignature
  | _ => false

/-- The replacement `window.fetch` installed by `interceptNetworkRequests`,
with the original primitive modelled as a function from the first argument
to its settled response, and the harvest side effect on the cache made
explicit.  The returned response is whatever `originalFetch` produced; the
harvest runs only on the matching branch, for `ok` responses whose body
decoded. -/
def windowFetchWrapper (originalFetch : Json → JsResponse) (c : Cache)
    (url : Json) : JsResponse × Cache :=
  match url with
  | .str s =>
    if strIncludes s targetSignature then
      let resp := originalFetch (.str s)
      let c2 :=
        if resp.ok then
          match resp.body with
          | some data => processJobData data c
          | none => c
        else c
      (resp, c2)
    else (originalFetch (.str s), c)
  | u => (originalFetch u, c)

/-! ## Lifecycle and presenter state machine (richer variant)

The DOM-facing state of the content script: the value of `window.fetch`
(`native` before any wrapping, `wrapped f` after `interceptNetworkRequests`
replaces the value `f`), the number of registered document click listeners,
the two `MutationObserver`s (the anonymous navigation observer of
`setupJobClickHandlers` and `this.observer` of `observePageChanges`), the
record cache, the tooltip currently referenced by `this.currentTooltip`,
the tooltip elements attached to the document (with the record each one
displays), the armed and not yet fired auto-dismiss timeouts (identified by
the tooltip they were created for), and the `isInitialized` flag.
`nextId` supplies fresh identities for created tooltip elements. -/

/-- The value of the process-wide `window.fetch` binding. -/
inductive FetchVal where
  | native
  | wrapped (inner : FetchVal)
deriving DecidableEq

/-- Number of wrappers stacked over the native primitive. -/
def FetchVal.depth : FetchVal → Nat
  | .native => 0
  | .wrapped f => f.depth + 1

/-- Observable state of the page plus the script instance. -/
structure ScriptState where
  fetchVal : FetchVal
  clickListeners : Nat
  navObserverActive : Bool
  pageObserverActive : Bool
  jobData : Cache
  currentTooltip : Option Nat
  domTooltips : List (Nat × JobRecord)
  pendingTimers : List Nat
  nextId : Nat
  isInitialized : Bool
deriving DecidableEq

/-- The page before the content script runs. -/
def initialState : ScriptState :=
  { fetchVal := .native
    clickListeners := 0
    navObserverActive := false
    pageObserverActive := false
    jobData := []
    currentTooltip := none
    domTooltips := []
    pendingTimers := []
    nextId := 0
    isInitialized := false }

/-- `interceptNetworkRequests`: capture the current `window.fetch` and
install the wrapper over it. -/
def interceptNetworkRequestsFn (s : ScriptState) : ScriptState :=
  { s with fetchVal := .wrapped s.fetchVal }

/-- `setupJobClickHandlers`: register the document click listener and the
anonymous location-watching `MutationObserver`. -/
def setupJobClickHandlersFn (s : ScriptState) : ScriptState :=
  { s with clickListeners := s.clickListeners + 1, navObserverActive := true }

/-- `observePageChanges`: start `this.observer`. -/
def observePageChangesFn (s : ScriptState) : ScriptState :=
  { s with pageObserverActive := true }

/-- `init()`: a no-op when already initialized, otherwise install the fetch
wrapper, the click/navigation listeners and the page observer, then set the
flag. -/
def initFn (s : ScriptState) : ScriptState :=
  if s.isInitialized then s
  else
    { observePageChangesFn (setupJobClickHandlersFn
        (interceptNetworkRequestsFn s)) with isInitialized := true }

/-- `removeExistingTooltip`: drop the `currentTooltip` reference and remove
every element of the tooltip class from the document. -/
def removeExistingTooltipFn (s : ScriptState) : ScriptState :=
  { s with currentTooltip := none, domTooltips := [] }

/-- `destroy()`: disconnect `this.observer`, remove the tooltip, clear the
cache, reset the flag.  (It touches nothing else: not `window.fetch`, not
the click listener, not the navigation observer, not pending timers.) -/
def destroyFn (s : ScriptState) : ScriptState :=
  { removeExistingTooltipFn { s with pageObserverActive := false } with
      jobData := [], isInitialized := false }

/-- `showJobInsightsForId(jobId)` with the presence of the layout anchor
(`document.querySelector('.jobs-details, .job-view-layout,
.jobs-search__job-details')` finding an element) as an explicit input.  The
`Bool` result reports a thrown `TypeError`: when the anchor is absent the
source calls `getBoundingClientRect()` on `null` after the tooltip has been
appended and `currentTooltip` set, and before the auto-dismiss timeout is
armed. -/
def showJobInsightsForIdFn (anchorPresent : Bool) (jobId : Json)
    (s : ScriptState) : ScriptState × Bool :=
  match mapGet s.jobData jobId with
  | none => (s, false)
  | some info =>
    let s1 := removeExistingTooltipFn s
    let tid := s1.nextId
    let s2 := { s1 with
      domTooltips := [(tid, info)]
      currentTooltip := some tid
      nextId := tid + 1 }
    if anchorPresent then
      ({ s2 with pendingTimers := s2.pendingTimers ++ [tid] }, false)
    else
      (s2, true)

/-- An auto-dismiss timeout firing: the callback removes the tooltip only
when `this.currentTooltip` is still the very element the timeout was
created for. -/
def fireTimerFn (tid : Nat) (s : ScriptState) : ScriptState :=
  let s1 := { s with pendingTimers := s.pendingTimers.erase tid }
  if s1.currentTooltip = some tid then removeExistingTooltipFn s1 else s1

/-- The close button's `this.parentElement.remove()`: detach the element
from the document; `currentTooltip` and the timeout are untouched. -/
def dismissTooltipFn (tid : Nat) (s : ScriptState) : ScriptState :=
  { s with domTooltips := s.domTooltips.filter (fun p => p.1 != tid) }

/-- One event of the single-threaded run-to-completion model: a lifecycle
call, a completed harvest, a show request (for any id and either anchor
state), a click on a close button, or a pending timeout firing. -/
inductive Step : ScriptState → ScriptState → Prop where
  | init (s : ScriptState) : Step s (initFn s)
  | destroy (s : ScriptState) : Step s (destroyFn s)
  | harvest (s : ScriptState) (data : Json) :
      Step s { s with jobData := processJobData data s.jobData }
  | showEvent (s : ScriptState) (anchorPresent : Bool) (jobId : Json) :
      Step s (showJobInsightsForIdFn anchorPresent jobId s).1
  | dismiss (s : ScriptState) (tid : Nat) : Step s (dismissTooltipFn tid s)
  | fire (s : ScriptState) (tid : Nat) (h : tid ∈ s.pendingTimers) :
      Step s (fireTimerFn tid s)

/-- States reachable from the fresh page. -/
inductive Reachable : ScriptState → Prop where
  | base : Reachable initialState
  | step {s t : ScriptState} : Reachable s → Step s t → Reachable t

/-! ## Presenter of the reduced variant

The reduced `showJobInsights` uses no layout anchor and arms its timeout
with a callback that calls `removeExistingTooltip()` unconditionally — it
does not check that `currentTooltip` is still the tooltip the timeout was
created for.  Its `removeExistingTooltip` removes only `currentTooltip`. -/

/-- Observable presenter state of the reduced variant. -/
structure ExeState where
  jobData : ExeCache
  currentTooltip : Option Nat
  domTooltips : List (Nat × ExeJobRecord)
  pendingTimers : List Nat
  nextId : Nat
deriving DecidableEq

/-- The reduced `removeExistingTooltip`. -/
def removeExistingTooltipExe (s : ExeState) : ExeState :=
  match s.currentTooltip with
  | some t =>
    { s with currentTooltip := none
             domTooltips := s.domTooltips.filter (fun p => p.1 != t) }
  | none => s

/-- The reduced `showJobInsights` after id resolution. -/
def showJobInsightsExe (jobId : Json) (s : ExeState) : ExeState :=
  match mapGet s.jobData jobId with
  | none => s
  | some info =>
    let s1 := removeExistingTooltipExe s
    let tid := s1.nextId
    { s1 with
      domTooltips := s1.domTooltips ++ [(tid, info)]
      currentTooltip := some tid
      nextId := tid + 1
      pendingTimers := s1.pendingTimers ++ [tid] }

/-- A reduced-variant timeout firing: removes whatever tooltip is current,
with no ownership check. -/
def fireTimerExe (tid : Nat) (s : ExeState) : ExeState :=
  removeExistingTooltipExe { s with pendingTimers := s.pendingTimers.erase tid }

/-! ## Claim-side shape predicates

These formalize the precondition of the unrecognized-payload claim using
the code's own notion of the relevant fields (truthiness of `elements`,
`data.elements`, `jobPostingId`; extraction from `entityUrn`). -/

/-- The payload has a top-level `elements` list. -/
def hasTopLevelListField (data : Json) : Bool :=
  match data.field "elements" with
  | .arr _ => true
  | _ => false

/-- The payload has a nested `data.elements` list. -/
def hasNestedListField (data : Json) : Bool :=
  match (data.field "data").field "elements" with
  | .arr _ => true
  | _ => false

/-- The payload is itself a list. -/
def isListPayload (data : Json) : Bool :=
  match data with
  | .arr _ => true
  | _ => false

/-- The payload is a single job entry: it carries a truthy `jobPostingId`,
or an `entityUrn` string from which a job id can be extracted. -/
def isSingleJobEntry (data : Json) : Bool :=
  jsTruthy (data.field "jobPostingId") ||
    (match data.field "entityUrn" with
     | .str s => (extractJobId s).isSome
     | _ => false)

/-- The payload has none of the recognized shapes. -/
def unrecognizedShape (data : Json) : Bool :=
  !hasTopLevelListField data && !hasNestedListField data &&
    !isListPayload data && !isSingleJobEntry data

/-! ## Concrete fixtures used by counterexamples and witnesses -/

/-- A record harvested from an entry with all metric fields missing. -/
def recA : JobRecord := buildJobRecord (.str "111") (.obj .nil)

/-- A record harvested from an entry carrying a view count. -/
def recB : JobRecord :=
  buildJobRecord (.str "222") (.obj (.cons "views" (.num 9) .nil))

/-- A page state whose cache holds records for ids "111" and "222". -/
def stateAB : ScriptState :=
  { initialState with jobData := [(.str "111", recA), (.str "222", recB)] }

/-- `stateAB` after `show("111")` with the layout anchor present. -/
def stateAfterShowA : ScriptState :=
  (showJobInsightsForIdFn true (.str "111") stateAB).1

/-- `stateAfterShowA` after `show("222")` with the layout anchor present. -/
def stateAfterShowAB : ScriptState :=
  (showJobInsightsForIdFn true (.str "222") stateAfterShowA).1

/-- A page state whose cache holds a record for id "111" only. -/
def stateA : ScriptState :=
  { initialState with jobData := [(.str "111", recA)] }

/-- A reduced-variant state with records for ids "111" and "222". -/
def exeStateAB : ExeState :=
  { jobData := [(.str "111", buildExeJobRecord (.str "111") (.obj .nil)),
               (.str "222", buildExeJobRecord (.str "222") (.obj .nil))]
    currentTooltip := none
    domTooltips := []
    pendingTimers := []
    nextId := 0 }

/-- `exeStateAB` after `show("111")` then `show("222")`. -/
def exeStateAfterShowAB : ExeState :=
  showJobInsightsExe (.str "222") (showJobInsightsExe (.str "111") exeStateAB)

/-- The spec's example harvest payload:
`{elements: [{jobPostingId: "42", listedAt: 1700000000000, views: 10}]}`. -/
def payload42 : Json :=
  .obj (.cons "elements"
    (.arr (.cons (.obj (.cons "jobPostingId" (.str "42")
      (.cons "listedAt" (.num 1700000000000)
      (.cons "views" (.num 10) .nil)))) .nil)) .nil)

/-! ## Helper lemmas -/

/-- Elements taken by `takeWhile` satisfy the predicate. -/
theorem takeWhile_all (q : Char → Bool) :
    ∀ l : List Char, (l.takeWhile q).all q = true := by
  intro l
  induction l with
  | nil => rfl
  | cons c cs ih =>
    by_cases hq : q c
    · simp [List.takeWhile, hq, ih]
    · simp [List.takeWhile, hq]

/-- A capture produced at a fixed position is a nonempty digit run. -/
theorem tryMatchAt_digits {p : IdPattern} {cs : List Char} {v : String}
    (h : tryMatchAt p cs = some v) :
    v.data ≠ [] ∧ v.data.all Char.isDigit = true := by
  unfold tryMatchAt at h
  split at h
  · exact absurd h (by simp)
  · split at h
    · exact absurd h (by simp)
    · split at h
      · exact absurd h (by simp)
      · rename_i r1 r2 hd
        split at h
        · split at h
          · injection h with h
            subst h
            exact ⟨hd, takeWhile_all _ _⟩
          · exact absurd h (by simp)
        · injection h with h
          subst h
          exact ⟨hd, takeWhile_all _ _⟩

/-- A leftmost-match capture is a nonempty digit run. -/
theorem scanPattern_digits {p : IdPattern} {v : String} :
    ∀ cs : List Char, scanPattern p cs = some v →
      v.data ≠ [] ∧ v.data.all Char.isDigit = true := by
  intro cs
  induction cs with
  | nil => intro h; exact tryMatchAt_digits (by simpa [scanPattern] using h)
  | cons c rest ih =>
    intro h
    unfold scanPattern at h
    cases ht : tryMatchAt p (c :: rest) with
    | some m => rw [ht] at h; injection h with h; exact h ▸ tryMatchAt_digits ht
    | none => rw [ht] at h; exact ih h

/-- The pattern loop returns `none` exactly when no rule matches. -/
theorem extractLoop_eq_none_iff (cs : List Char) :
    ∀ ps : List IdPattern,
      extractLoop ps cs = none ↔ ∀ p ∈ ps, scanPattern p cs = none := by
  intro ps
  induction ps with
  | nil => simp [extractLoop]
  | cons q qs ih =>
    unfold extractLoop
    cases hq : scanPattern q cs with
    | some m => simp [hq]
    | none => simp [hq, ih]

/-- The pattern loop returns a capture exactly when some rule matches and
every earlier rule does not: first-match semantics. -/
theorem extractLoop_eq_some_iff (cs : List Char) (v : String) :
    ∀ ps : List IdPattern,
      extractLoop ps cs = some v ↔
        ∃ l p r, ps = l ++ p :: r ∧ (∀ q ∈ l, scanPattern q cs = none) ∧
          scanPattern p cs = some v := by
  intro ps
  induction ps with
  | nil =>
    constructor
    · intro h; exact absurd h (by simp [extractLoop])
    · rintro ⟨l, p, r, hps, -, -⟩
      exact absurd hps.symm (by simp)
  | cons q qs ih =>
    unfold extractLoop
    cases hq : scanPattern q cs with
    | some m =>
      constructor
      · intro h
        injection h with h
        exact ⟨[], q, qs, rfl, by simp, by rw [hq, h]⟩
      · rintro ⟨l, p, r, hps, hnone, hp⟩
        cases l with
        | nil =>
          injection hps with h1 h2
          subst h1
          rw [hq] at hp
          exact hp
        | cons a l2 =>
          injection hps with h1 h2
          subst h1
          exact absurd hq (by rw [hnone q (by simp)]; simp)
    | none =>
      rw [ih]
      constructor
      · rintro ⟨l, p, r, hps, hnone, hp⟩
        refine ⟨q :: l, p, r, by simp [hps], ?_, hp⟩
        intro x hx
        rcases List.mem_cons.mp hx with h1 | h2
        · exact h1 ▸ hq
        · exact hnone x h2
      · rintro ⟨l, p, r, hps, hnone, hp⟩
        cases l with
        | nil =>
          injection hps with h1 h2
          subst h1
          exact absurd hp (by rw [hq]; simp)
        | cons a l2 =>
          injection hps with h1 h2
          exact ⟨l2, p, r, h2, fun x hx => hnone x (by simp [hx]), hp⟩

/-- A reduced-rule-list miss follows from a full-rule-list miss: the
reduced list is a prefix of the full one. -/
theorem extractJobIdExe_none_of_extractJobId_none {s : String}
    (h : extractJobId s = none) : extractJobIdExe s = none := by
  unfold extractJobId at h
  unfold extractJobIdExe
  rw [extractLoop_eq_none_iff] at h ⊢
  intro p hp
  apply h
  simp [jobIdPatterns, exeJobIdPatterns] at hp ⊢
  tauto

/-- `Map.get` after `Map.set` with the same key returns exactly the value
just written. -/
theorem mapGet_mapSet_self {α : Type} (k : Json) (v : α) :
    ∀ m : List (Json × α), mapGet (mapSet m k v) k = some v := by
  intro m
  induction m with
  | nil => simp [mapSet, mapGet]
  | cons kv rest ih =>
    obtain ⟨k0, v0⟩ := kv
    by_cases hk : k0 = k
    · simp [mapSet, hk, mapGet]
    · simp [mapSet, hk, mapGet, ih]

/-- Closed form of the richer variant's shape dispatch on an object
payload. -/
theorem selectJobs_obj (fs : JsonFields) :
    selectJobs (.obj fs) =
      if jsTruthy ((fs.lookup "elements").getD .undefined) then
        .ok ((fs.lookup "elements").getD .undefined)
      else if jsTruthy (if jsTruthy ((fs.lookup "data").getD .undefined)
          then ((fs.lookup "data").getD .undefined).field "elements"
          else ((fs.lookup "data").getD .undefined)) then
        .ok (if jsTruthy ((fs.lookup "data").getD .undefined)
          then ((fs.lookup "data").getD .undefined).field "elements"
          else ((fs.lookup "data").getD .undefined))
      else if jsTruthy ((fs.lookup "jobPostingId").getD .undefined) then
        .ok (.arr (.cons (.obj fs) .nil))
      else .ok (.arr .nil) := by
  unfold selectJobs
  simp only [jsGet, Json.field, Bind.bind, Except.bind]
  split_ifs <;> rfl

/-- Closed form of the reduced variant's shape dispatch on an object
payload. -/
theorem selectJobsExe_obj (fs : JsonFields) :
    selectJobsExe (.obj fs) =
      if jsTruthy ((fs.lookup "elements").getD .undefined) then
        .ok ((fs.lookup "elements").getD .undefined)
      else if jsTruthy (if jsTruthy ((fs.lookup "data").getD .undefined)
          then ((fs.lookup "data").getD .undefined).field "elements"
          else ((fs.lookup "data").getD .undefined)) then
        .ok (if jsTruthy ((fs.lookup "data").getD .undefined)
          then ((fs.lookup "data").getD .undefined).field "elements"
          else ((fs.lookup "data").getD .undefined))
      else .ok (.arr (.cons (.obj fs) .nil)) := by
  unfold selectJobsExe
  simp only [jsGet, Json.field, Bind.bind, Except.bind]
  split_ifs <;> rfl

/-- The reduced per-entry processing leaves the cache alone (or throws into
the surrounding `catch`) when the entry has a falsy `jobPostingId` and no
extractable `entityUrn`. -/
theorem processJobExe_obj_skip (c : ExeCache) (fs : JsonFields)
    (hjp : jsTruthy ((fs.lookup "jobPostingId").getD Json.undefined) = false)
    (heu : (match (fs.lookup "entityUrn").getD Json.undefined with
            | Json.str s => (extractJobId s).isSome | _ => false) = false) :
    processJobExe c (.obj fs) = .ok c ∨
      ∃ msg, processJobExe c (.obj fs) = .error msg := by
  unfold processJobExe
  simp only [jsGet, Json.field, Bind.bind, Except.bind]
  rw [if_neg (fun hcon => by rw [hjp] at hcon; exact Bool.noConfusion hcon)]
  cases hx : (fs.lookup "entityUrn").getD Json.undefined with
  | str s =>
    rw [hx] at heu
    have heu2 : (extractJobId s).isSome = false := heu
    have hnone : extractJobIdExe s = none :=
      extractJobIdExe_none_of_extractJobId_none (by
        cases hcase : extractJobId s with
        | none => rfl
        | some m => rw [hcase] at heu2; simp at heu2)
    have harg : jsOr (.str s) (.str "") = .str s := by
      unfold jsOr
      by_cases hs : jsTruthy (.str s) = true
      · rw [if_pos hs]
      · rw [if_neg hs]
        have hse : s = "" := by
          simp [jsTruthy] at hs
          exact hs
        rw [hse]
    rw [harg]
    unfold jsExtractJobIdExe
    dsimp only
    rw [hnone]
    exact Or.inl rfl
  | undefined => exact Or.inl rfl
  | null => exact Or.inl rfl
  | bool b =>
    cases b with
    | false => exact Or.inl rfl
    | true => exact Or.inr ⟨_, rfl⟩
  | num n =>
    by_cases hn : jsTruthy (.num n) = true
    · have harg : jsOr (.num n) (.str "") = .num n := by unfold jsOr; rw [if_pos hn]
      rw [harg]
      exact Or.inr ⟨_, rfl⟩
    · have harg : jsOr (.num n) (.str "") = .str "" := by unfold jsOr; rw [if_neg hn]
      rw [harg]
      exact Or.inl rfl
  | arr xs => exact Or.inr ⟨_, rfl⟩
  | obj gs => exact Or.inr ⟨_, rfl⟩

/-- The richer `processJobData` does not touch the cache on an object
payload of unrecognized shape. -/
theorem processJobData_unrecognized_obj (fs : JsonFields) (c : Cache)
    (h1 : hasTopLevelListField (.obj fs) = false)
    (h2 : hasNestedListField (.obj fs) = false)
    (h4 : isSingleJobEntry (.obj fs) = false) :
    processJobData (.obj fs) c = c := by
  have h1a : (match (fs.lookup "elements").getD Json.undefined with
      | Json.arr _ => true | _ => false) = false := h1
  have h2a : (match ((fs.lookup "data").getD Json.undefined).field "elements" with
      | Json.arr _ => true | _ => false) = false := h2
  have h4a : (jsTruthy ((fs.lookup "jobPostingId").getD Json.undefined) ||
      (match (fs.lookup "entityUrn").getD Json.undefined with
       | Json.str s => (extractJobId s).isSome | _ => false)) = false := h4
  rw [Bool.or_eq_false_iff] at h4a
  unfold processJobData processJobDataRun
  rw [selectJobs_obj]
  by_cases hte : jsTruthy ((fs.lookup "elements").getD .undefined) = true
  · rw [if_pos hte]
    cases hx : (fs.lookup "elements").getD Json.undefined with
    | arr ys => rw [hx] at h1a; simp at h1a
    | undefined => rfl
    | null => rfl
    | bool b => rfl
    | num n => rfl
    | str s => rfl
    | obj gs => rfl
  · rw [if_neg hte]
    by_cases htd : jsTruthy (if jsTruthy ((fs.lookup "data").getD .undefined)
        then ((fs.lookup "data").getD .undefined).field "elements"
        else ((fs.lookup "data").getD .undefined)) = true
    · rw [if_pos htd]
      by_cases hd : jsTruthy ((fs.lookup "data").getD .undefined) = true
      · rw [if_pos hd] at htd ⊢
        cases hx : ((fs.lookup "data").getD Json.undefined).field "elements" with
        | arr ys => rw [hx] at h2a; simp at h2a
        | undefined => rfl
        | null => rfl
        | bool b => rfl
        | num n => rfl
        | str s => rfl
        | obj gs => rfl
      · rw [if_neg hd] at htd
        exact absurd htd hd
    · rw [if_neg htd]
      rw [if_neg (fun hcon => by rw [h4a.1] at hcon; exact Bool.noConfusion hcon)]
      rfl

/-- The reduced `processJobData` does not touch the cache on an object
payload of unrecognized shape. -/
theorem processJobDataExe_unrecognized_obj (fs : JsonFields) (ce : ExeCache)
    (h1 : hasTopLevelListField (.obj fs) = false)
    (h2 : hasNestedListField (.obj fs) = false)
    (h4 : isSingleJobEntry (.obj fs) = false) :
    processJobDataExe (.obj fs) ce = ce := by
  have h1a : (match (fs.lookup "elements").getD Json.undefined with
      | Json.arr _ => true | _ => false) = false := h1
  have h2a : (match ((fs.lookup "data").getD Json.undefined).field "elements" with
      | Json.arr _ => true | _ => false) = false := h2
  have h4a : (jsTruthy ((fs.lookup "jobPostingId").getD Json.undefined) ||
      (match (fs.lookup "entityUrn").getD Json.undefined with
       | Json.str s => (extractJobId s).isSome | _ => false)) = false := h4
  rw [Bool.or_eq_false_iff] at h4a
  unfold processJobDataExe processJobDataRunExe
  rw [selectJobsExe_obj]
  by_cases hte : jsTruthy ((fs.lookup "elements").getD .undefined) = true
  · rw [if_pos hte]
    cases hx : (fs.lookup "elements").getD Json.undefined with
    | arr ys => rw [hx] at h1a; simp at h1a
    | undefined => rfl
    | null => rfl
    | bool b => rfl
    | num n => rfl
    | str s => rfl
    | obj gs => rfl
  · rw [if_neg hte]
    by_cases htd : jsTruthy (if jsTruthy ((fs.lookup "data").getD .undefined)
        then ((fs.lookup "data").getD .undefined).field "elements"
        else ((fs.lookup "data").getD .undefined)) = true
    · rw [if_pos htd]
      by_cases hd : jsTruthy ((fs.lookup "data").getD .undefined) = true
      · rw [if_pos hd] at htd ⊢
        cases hx : ((fs.lookup "data").getD Json.undefined).field "elements" with
        | arr ys => rw [hx] at h2a; simp at h2a
        | undefined => rfl
        | null => rfl
        | bool b => rfl
        | num n => rfl
        | str s => rfl
        | obj gs => rfl
      · rw [if_neg hd] at htd
        exact absurd htd hd
    · rw [if_neg htd]
      have hskip := processJobExe_obj_skip ce fs h4a.1 h4a.2
      show (processJobsExe ce (JsonList.cons (.obj fs) JsonList.nil).toList).1 = ce
      rcases hskip with hok | ⟨msg, herr⟩
      · show (match processJobExe ce (.obj fs) with
          | .ok c2 => processJobsExe c2 []
          | .error _ => (ce, true)).1 = ce
        rw [hok]
        rfl
      · show (match processJobExe ce (.obj fs) with
          | .ok c2 => processJobsExe c2 []
          | .error _ => (ce, true)).1 = ce
        rw [herr]

/-! ## Claim theorems -/

/-- C1: every call through the installed fetch wrapper delivers exactly the
original primitive's result to the caller, whatever the interception branch
does (it only touches the cache), and a call whose first argument is not a
string containing the endpoint signature passes through with no observable
effect at all (same result, cache untouched). -/
theorem fetch_wrapper_transparent :
    ∀ (originalFetch : Json → JsResponse) (c : Cache) (url : Json),
      (windowFetchWrapper originalFetch c url).1 = originalFetch url ∧
      (urlMatches url = false →
        windowFetchWrapper originalFetch c url = (originalFetch url, c)) := by
  intro f c url
  constructor
  · cases url with
    | str s =>
      unfold windowFetchWrapper
      dsimp only
      by_cases hm : strIncludes s targetSignature = true
      · rw [if_pos hm]
      · rw [if_neg hm]
    | undefined => rfl
    | null => rfl
    | bool b => rfl
    | num n => rfl
    | arr xs => rfl
    | obj fs => rfl
  · intro hm
    cases url with
    | str s =>
      have hm2 : strIncludes s targetSignature = false := hm
      unfold windowFetchWrapper
      dsimp only
      rw [if_neg (fun hcon => by rw [hm2] at hcon; exact Bool.noConfusion hcon)]
    | undefined => rfl
    | null => rfl
    | bool b => rfl
    | num n => rfl
    | arr xs => rfl
    | obj fs => rfl

/-- Witness for C1 at a concrete non-matching URL. -/
theorem fetch_wrapper_transparent_witness :
    windowFetchWrapper (fun _ => ⟨true, some payload42⟩) []
        (.str "https://www.linkedin.com/feed") =
      (⟨true, some payload42⟩, []) :=
  (fetch_wrapper_transparent (fun _ => ⟨true, some payload42⟩) []
    (.str "https://www.linkedin.com/feed")).2 (by decide)

/-- C2 counterexample: after `init()` then `destroy()`, the network-fetch
primitive is still the wrapper (not the pre-`init()` native value) and the
document click listener is still registered, refuting the claim that the
primitive is restored and the listeners removed. -/
theorem destroy_leaves_wrapper_counterexample :
    (destroyFn (initFn initialState)).fetchVal ≠ initialState.fetchVal ∧
    (destroyFn (initFn initialState)).clickListeners ≠
      initialState.clickListeners := by decide

/-- C2 (amended): after `destroy()` the Record Cache is empty, no overlay
element is present, the page observer is disconnected and the initialized
flag is reset; but `window.fetch` keeps whatever value it had (the wrapper
stays installed), the click listener and navigation observer stay
registered, and pending auto-dismiss timers stay scheduled. -/
theorem destroy_partial_teardown :
    ∀ s : ScriptState,
      (destroyFn s).jobData = [] ∧
      (destroyFn s).domTooltips = [] ∧
      (destroyFn s).currentTooltip = none ∧
      (destroyFn s).pageObserverActive = false ∧
      (destroyFn s).isInitialized = false ∧
      (destroyFn s).fetchVal = s.fetchVal ∧
      (destroyFn s).clickListeners = s.clickListeners ∧
      (destroyFn s).navObserverActive = s.navObserverActive ∧
      (destroyFn s).pendingTimers = s.pendingTimers := by
  intro s
  simp [destroyFn, removeExistingTooltipFn]

/-- C3 counterexample: after `show("111")` then `show("222")` the first
panel (tooltip 0) has been destroyed by replacement, yet its auto-dismiss
timer is still pending — no timer is ever cancelled. -/
theorem replaced_panel_timer_still_pending_counterexample :
    stateAfterShowAB.domTooltips.map Prod.fst = [1] ∧
    0 ∈ stateAfterShowAB.pendingTimers := by decide

/-- C3 (amended): auto-dismiss timers are never cancelled.  In the richer
variant the timer callback checks ownership (`currentTooltip === tooltip`),
so a stale timer only unschedules itself and never touches a panel it does
not own; in the reduced variant the callback has no ownership check, and a
stale timer destroys the panel currently on screen (here panel 1, killed by
panel 0's timer). -/
theorem stale_timer_not_cancelled_but_guarded :
    (∀ (tid : Nat) (s : ScriptState), s.currentTooltip ≠ some tid →
      fireTimerFn tid s = { s with pendingTimers := s.pendingTimers.erase tid }) ∧
    (0 ∈ exeStateAfterShowAB.pendingTimers ∧
      exeStateAfterShowAB.currentTooltip = some 1 ∧
      (fireTimerExe 0 exeStateAfterShowAB).domTooltips = []) := by
  refine ⟨?_, by decide⟩
  intro tid s h
  unfold fireTimerFn
  rw [if_neg (by simpa using h)]

/-- Witness for C3 at a concrete state: panel 0's stale timer fires while
panel 1 is current and only unschedules itself. -/
theorem stale_timer_not_cancelled_but_guarded_witness :
    fireTimerFn 0 stateAfterShowAB =
      { stateAfterShowAB with
          pendingTimers := stateAfterShowAB.pendingTimers.erase 0 } :=
  stale_timer_not_cancelled_but_guarded.1 0 stateAfterShowAB (by decide)

/-- C4 counterexample: after `show` of id "111" then id "222" exactly one
overlay is visible and it displays the second record, but the first show's
auto-dismiss timer (timer 0) is still pending, refuting the claim's
"A's auto-dismiss timer is not pending". -/
theorem show_twice_old_timer_pending_counterexample :
    stateAfterShowAB.domTooltips = [(1, recB)] ∧
    0 ∈ stateAfterShowAB.pendingTimers := by decide

/-- C4 (amended): calling show with ids A then B (both cached, anchor
present) leaves exactly one overlay visible, displaying B's record; A's
auto-dismiss timer remains pending (it is harmless by the ownership guard,
see C3).  In every reachable state at most one overlay panel is visible. -/
theorem show_twice_b_displayed_at_most_one_overlay :
    (∀ (s : ScriptState) (idA idB : Json) (rA rB : JobRecord),
      mapGet s.jobData idA = some rA → mapGet s.jobData idB = some rB →
        ((showJobInsightsForIdFn true idB
            (showJobInsightsForIdFn true idA s).1).1).domTooltips
          = [(s.nextId + 1, rB)] ∧
        ((showJobInsightsForIdFn true idB
            (showJobInsightsForIdFn true idA s).1).1).currentTooltip
          = some (s.nextId + 1) ∧
        s.nextId ∈ ((showJobInsightsForIdFn true idB
            (showJobInsightsForIdFn true idA s).1).1).pendingTimers) ∧
    (∀ s : ScriptState, Reachable s → s.domTooltips.length ≤ 1) := by
  constructor
  · intro s idA idB rA rB hA hB
    simp [showJobInsightsForIdFn, removeExistingTooltipFn, hA, hB,
      List.mem_append]
  · intro s h
    induction h with
    | base => simp [initialState]
    | step hr hs ih =>
      cases hs with
      | init =>
        unfold initFn
        split
        · exact ih
        · simpa [observePageChangesFn, setupJobClickHandlersFn,
            interceptNetworkRequestsFn] using ih
      | destroy => simp [destroyFn, removeExistingTooltipFn]
      | harvest data => simpa using ih
      | showEvent anchorPresent jobId =>
        unfold showJobInsightsForIdFn
        rename_i t
        cases mapGet t.jobData jobId with
        | none => exact ih
        | some info =>
          by_cases ha : anchorPresent = true
          · simp [ha, removeExistingTooltipFn]
          · simp [ha, removeExistingTooltipFn]
      | dismiss tid =>
        rename_i t
        calc (dismissTooltipFn tid t).domTooltips.length
            ≤ t.domTooltips.length := by
              simp only [dismissTooltipFn]
              exact List.length_filter_le _ _
          _ ≤ 1 := ih
      | fire tid hmem =>
        unfold fireTimerFn
        dsimp only
        split
        · simp [removeExistingTooltipFn]
        · simpa using ih

/-- Witness for C4 at the concrete two-record state and the initial
state. -/
theorem show_twice_b_displayed_at_most_one_overlay_witness :
    ((showJobInsightsForIdFn true (.str "222")
        (showJobInsightsForIdFn true (.str "111") stateAB).1).1).currentTooltip
      = some (stateAB.nextId + 1) ∧
    initialState.domTooltips.length ≤ 1 :=
  ⟨(show_twice_b_displayed_at_most_one_overlay.1 stateAB (.str "111")
      (.str "222") recA recB (by decide) (by decide)).2.1,
   show_twice_b_displayed_at_most_one_overlay.2 initialState Reachable.base⟩

/-- C5 counterexample: the sequence `init(); destroy(); init()` leaves two
wrappers stacked over the native fetch primitive, refuting "no sequence of
init() and destroy() calls results in stacked wrappers". -/
theorem reinit_stacks_wrappers_counterexample :
    (initFn (destroyFn (initFn initialState))).fetchVal.depth = 2 ∧
    ¬ (initFn (destroyFn (initFn initialState))).fetchVal.depth ≤ 1 := by
  decide

/-- C5 (amended): `init()` while already initialized is a no-op, and each
effective `init()` wraps the current `window.fetch` exactly once; but since
`destroy()` does not uninstall the wrapper, `init(); destroy(); init()`
stacks a second wrapper over the first. -/
theorem init_idempotent_destroy_restacks :
    (∀ s : ScriptState, s.isInitialized = true → initFn s = s) ∧
    (∀ s : ScriptState, s.isInitialized = false →
      (initFn s).fetchVal = .wrapped s.fetchVal) ∧
    (initFn (destroyFn (initFn initialState))).fetchVal
      = .wrapped (.wrapped .native) := by
  refine ⟨?_, ?_, by decide⟩
  · intro s h
    unfold initFn
    rw [if_pos h]
  · intro s h
    unfold initFn
    rw [if_neg (fun hcon => by rw [h] at hcon; exact Bool.noConfusion hcon)]
    rfl

/-- Witness for C5: a second `init()` right after the first is a no-op. -/
theorem init_idempotent_destroy_restacks_witness :
    initFn (initFn initialState) = initFn initialState :=
  init_idempotent_destroy_restacks.1 (initFn initialState) (by decide)

/-- C6: `extractJobId` applies its ordered pattern rules and returns the
capture of the first matching rule; every returned capture is a nonempty
digit string (the embedded numeric id); the supported path-segment URL
shape yields the embedded id and the non-matching example yields absent, in
both variants. -/
theorem extractJobId_first_match_spec :
    (∀ (s : String) (v : String), extractJobId s = some v ↔
      ∃ l p r, jobIdPatterns = l ++ p :: r ∧
        (∀ q ∈ l, scanPattern q s.data = none) ∧
        scanPattern p s.data = some v) ∧
    (∀ (s : String) (v : String), extractJobId s = some v →
      v ≠ "" ∧ v.data.all Char.isDigit = true) ∧
    extractJobId "https://x/jobs/view/123456" = some "123456" ∧
    extractJobId "https://x/jobs/search" = none ∧
    extractJobIdExe "https://x/jobs/view/123456" = some "123456" ∧
    extractJobIdExe "https://x/jobs/search" = none := by
  refine ⟨?_, ?_, by decide, by decide, by decide, by decide⟩
  · intro s v
    exact extractLoop_eq_some_iff s.data v jobIdPatterns
  · intro s v h
    obtain ⟨l, p, r, hps, hnone, hp⟩ :=
      (extractLoop_eq_some_iff s.data v jobIdPatterns).mp h
    obtain ⟨hne, hdig⟩ := scanPattern_digits s.data hp
    refine ⟨fun hv => hne ?_, hdig⟩
    rw [hv]

/-- Witness for C6: the capture of the path-segment example is a nonempty
digit string. -/
theorem extractJobId_first_match_spec_witness :
    "123456" ≠ "" ∧ "123456".data.all Char.isDigit = true :=
  extractJobId_first_match_spec.2.1 "https://x/jobs/view/123456" "123456"
    (by decide)

/-- C7: `put` (`Map.set`) followed by `get` (`Map.get`) with the same id
returns exactly the record just inserted, and a second `put` with the same
id fully replaces the first — the retrieved record is the second one, with
no field inherited from the first write. -/
theorem cache_put_get_full_replace :
    ∀ (c : Cache) (r1 r2 : JobRecord),
      mapGet (mapSet c r1.id r1) r1.id = some r1 ∧
      (r1.id = r2.id →
        mapGet (mapSet (mapSet c r1.id r1) r2.id r2) r2.id = some r2) := by
  intro c r1 r2
  exact ⟨mapGet_mapSet_self _ _ c, fun _ => mapGet_mapSet_self _ _ _⟩

/-- Witness for C7: a first harvest of id "42" with `views = 10` is fully
replaced by a second harvest of the same id with no `views` field; the
retrieved record holds the fallback `"N/A"`, not the old `10`. -/
theorem cache_put_get_full_replace_witness :
    mapGet (mapSet (mapSet ([] : Cache) (Json.str "42")
        (buildJobRecord (.str "42") (.obj (.cons "views" (.num 10) .nil))))
      (Json.str "42") (buildJobRecord (.str "42") (.obj .nil)))
      (Json.str "42") = some (buildJobRecord (.str "42") (.obj .nil)) ∧
    (buildJobRecord (.str "42") (.obj .nil)).views = Json.str "N/A" := by
  constructor
  · exact (cache_put_get_full_replace []
      (buildJobRecord (.str "42") (.obj (.cons "views" (.num 10) .nil)))
      (buildJobRecord (.str "42") (.obj .nil))).2 (by decide)
  · decide

/-- C8: an intercepted payload of unrecognized shape (no top-level list
field, no nested `data.*` list field, not itself a list, not a single job
entry) causes no cache mutation in either variant; the `catch` wrappers
make both processing functions total, so no error reaches the host page's
network flow. -/
theorem unrecognized_payload_no_cache_mutation :
    ∀ (data : Json) (c : Cache) (ce : ExeCache),
      unrecognizedShape data = true →
        processJobData data c = c ∧ processJobDataExe data ce = ce := by
  intro data c ce h
  simp only [unrecognizedShape, Bool.and_eq_true, Bool.not_eq_true'] at h
  obtain ⟨⟨⟨h1, h2⟩, h3⟩, h4⟩ := h
  constructor
  · cases data with
    | obj fs => exact processJobData_unrecognized_obj fs c h1 h2 h4
    | arr xs => exact absurd h3 (by simp [isListPayload])
    | undefined => rfl
    | null => rfl
    | bool b => rfl
    | num n => rfl
    | str s => rfl
  · cases data with
    | obj fs => exact processJobDataExe_unrecognized_obj fs ce h1 h2 h4
    | arr xs => exact absurd h3 (by simp [isListPayload])
    | undefined => rfl
    | null => rfl
    | bool b => rfl
    | num n => rfl
    | str s => rfl

/-- Witness for C8 at a concrete unrecognized payload and nonempty cache. -/
theorem unrecognized_payload_no_cache_mutation_witness :
    processJobData (.obj (.cons "foo" (.num 1) .nil))
        [(.str "5", recA)] = [(.str "5", recA)] ∧
    processJobDataExe (.obj (.cons "foo" (.num 1) .nil)) [] = [] :=
  unrecognized_payload_no_cache_mutation (.obj (.cons "foo" (.num 1) .nil))
    [(.str "5", recA)] [] (by decide)

/-- C9: with a cached record for id "111" but none of the layout-anchor
selectors present in the document, the richer variant's render throws
(`getBoundingClientRect` on `null`) after appending the tooltip and before
arming the auto-dismiss timer — it does not degrade to a default fixed
position, contradicting the spec's error-handling design. -/
theorem render_missing_anchor_throws :
    (showJobInsightsForIdFn false (.str "111") stateA).2 = true ∧
    ((showJobInsightsForIdFn false (.str "111") stateA).1).domTooltips
      = [(0, recA)] ∧
    ((showJobInsightsForIdFn false (.str "111") stateA).1).pendingTimers
      = [] := by decide

/-- C10: a harvested entry whose `views` or `applies` field is the integer
`0` is stored with the placeholder string `"N/A"` for that count (the
`|| 'N/A'` fallback treats `0` as absent), and the resulting record is
identical to the one harvested from the same entry with the field missing —
in both variants. -/
theorem zero_count_stored_as_na :
    ∀ (jobId : Json) (fs : JsonFields),
      (buildJobRecord jobId (.obj (.cons "views" (.num 0) fs))).views
        = .str "N/A" ∧
      (buildJobRecord jobId (.obj (.cons "applies" (.num 0) fs))).applies
        = .str "N/A" ∧
      (buildExeJobRecord jobId (.obj (.cons "views" (.num 0) fs))).views
        = .str "N/A" ∧
      (buildExeJobRecord jobId (.obj (.cons "applies" (.num 0) fs))).applies
        = .str "N/A" ∧
      (fs.lookup "views" = none →
        buildJobRecord jobId (.obj (.cons "views" (.num 0) fs))
          = buildJobRecord jobId (.obj fs)) ∧
      (fs.lookup "applies" = none →
        buildJobRecord jobId (.obj (.cons "applies" (.num 0) fs))
          = buildJobRecord jobId (.obj fs)) ∧
      (fs.lookup "views" = none →
        buildExeJobRecord jobId (.obj (.cons "views" (.num 0) fs))
          = buildExeJobRecord jobId (.obj fs)) ∧
      (fs.lookup "applies" = none →
        buildExeJobRecord jobId (.obj (.cons "applies" (.num 0) fs))
          = buildExeJobRecord jobId (.obj fs)) := by
  intro jobId fs
  refine ⟨rfl, rfl, rfl, rfl, ?_, ?_, ?_, ?_⟩ <;> intro hno
  · simp [buildJobRecord, Json.field, JsonFields.lookup, hno]
    rfl
  · simp [buildJobRecord, Json.field, JsonFields.lookup, hno]
    rfl
  · simp [buildExeJobRecord, Json.field, JsonFields.lookup, hno]
    rfl
  · simp [buildExeJobRecord, Json.field, JsonFields.lookup, hno]
    rfl

/-- Witness for C10: a zero view count and an absent view count produce the
same stored record. -/
theorem zero_count_stored_as_na_witness :
    buildJobRecord (.str "7") (.obj (.cons "views" (.num 0) .nil))
      = buildJobRecord (.str "7") (.obj .nil) :=
  (zero_count_stored_as_na (.str "7") .nil).2.2.2.2.1 (by decide)

end JobInsights
